import Mathlib

/-!
Verification of the hail `format.hpp` text-formatting utility.

The header declares an abstract `FormatStream` sink, per-type `format1`
conversion overloads, the `FormatAddress` and `Indent` marker wrappers, and
variadic `format` / `print` entry points that fold `format1` over the
arguments in order.  The variadic templates and the overload set are embedded
from the source; the bodies of the `format1` overloads are not part of the
provided sources, so their textual output is modelled from the spec
(decimal rendering for integers, verbatim text, hexadecimal addresses,
whitespace indentation).
-/

namespace HailFormat

/-! ### Positional digit strings (shared by decimal and hexadecimal rendering) -/

/-- The character for digit value `d`, for bases up to 16: `0`–`9` for the
first ten digit values (codes from 48), then `a`–`f` (codes from 87 + 10). -/
def digitChar (d : Nat) : Char :=
  if d < 10 then Char.ofNat (48 + d)
  else if d < 16 then Char.ofNat (87 + d)
  else '?'

/-- Fuel-driven worker for the big-endian digit expansion in base `k + 2`
(the offset keeps the base ≥ 2); structural recursion on the fuel keeps the
function kernel-reducible. -/
def digitsFuel (k : Nat) : Nat → Nat → List Nat
  | _, 0 => []
  | 0, _ + 1 => []
  | fuel + 1, n + 1 => digitsFuel k fuel ((n + 1) / (k + 2)) ++ [(n + 1) % (k + 2)]

/-- Big-endian digits of `n` in base `k + 2`; `0` has no digits. -/
def digitsB (k n : Nat) : List Nat := digitsFuel k n n

/-- The numeric value of a big-endian digit list in base `k + 2`. -/
def valB (k : Nat) (ds : List Nat) : Nat :=
  ds.foldl (fun a d => a * (k + 2) + d) 0

/-! ### Decimal rendering and parsing -/

/-- Modelled from the spec: decimal text representation of an unsigned integer
value, minimal (no leading zeros; zero itself is `"0"`), used by the
`format1` overloads for the unsigned integer types. -/
def natRepr (n : Nat) : String :=
  if n = 0 then "0" else String.mk ((digitsB 8 n).map digitChar)

/-- Modelled from the spec: decimal text representation of a signed integer
value, with a leading sign exactly for negatives, used by the `format1`
overloads for the signed integer types. -/
def intRepr (v : Int) : String :=
  if v < 0 then "-" ++ natRepr v.natAbs else natRepr v.toNat

/-- Whether a character is a decimal digit. -/
def isDigitB (c : Char) : Bool := 48 ≤ c.toNat && c.toNat ≤ 57

/-- The digit value of a decimal digit character. -/
def digitVal (c : Char) : Nat := c.toNat - 48

/-- Parse a character list as an unsigned decimal numeral. -/
def parseNatL (l : List Char) : Option Nat :=
  if l = [] then none
  else if l.all isDigitB then some (valB 8 (l.map digitVal)) else none

/-- Parse a string as an unsigned decimal numeral. -/
def parseNat (s : String) : Option Nat := parseNatL s.data

/-- Parse a character list as an optionally-negated decimal numeral. -/
def parseIntL (l : List Char) : Option Int :=
  if l.head? = some '-' then
    match parseNatL l.tail with
    | some n => some (-(n : Int))
    | none => none
  else
    match parseNatL l with
    | some n => some ((n : Int))
    | none => none

/-- Parse a string as a signed decimal numeral. -/
def parseInt (s : String) : Option Int := parseIntL s.data

/-! ### Marker wrappers: `Indent` and `FormatAddress` -/

/-- The fixed whitespace unit one indent level expands to (two spaces). -/
def indentUnit : String := "  "

/-- Emission loop for indentation: append the unit once per level. -/
def indentLoop : Nat → String
  | 0 => ""
  | n + 1 => indentLoop n ++ indentUnit

/-- Modelled from the spec: the output of `format1(FormatStream &, Indent)`.
A non-positive level runs the loop zero times (`Int.toNat` clamps to `0`). -/
def indentRepr (n : Int) : String := indentLoop n.toNat

/-- The hexadecimal digit list of an address (the null address renders as the
single digit `0`). -/
def hexDigits (p : Nat) : List Nat := if p = 0 then [0] else digitsB 14 p

/-- Modelled from the spec: the output of `format1(FormatStream &, FormatAddress)`,
a hexadecimal rendering of the address value that begins with `0x`. -/
def addrRepr (p : Nat) : String := "0x" ++ String.mk ((hexDigits p).map digitChar)

/-! ### The argument values of `format` / `print`

One constructor per `format1` overload declared in `format.hpp` that the
claims are about (floating point is excluded: no claim concerns it).
Signed C++ types carry an `Int`, unsigned ones a `Nat`; `cstr` is a
`const char *` argument, `ostr` an owned `std::string`. -/

inductive Value where
  | schar (v : Int)
  | uchar (v : Nat)
  | sshort (v : Int)
  | ushort (v : Nat)
  | sint (v : Int)
  | uint (v : Nat)
  | slong (v : Int)
  | ulong (v : Nat)
  | cstr (s : String)
  | ostr (s : String)
  | addr (p : Nat)
  | indent (n : Int)
  deriving DecidableEq

/-- The text `format1` writes to the sink for one value: decimal for the
integer overloads, verbatim characters for text, hexadecimal for
`FormatAddress`, whitespace for `Indent` (the conversion bodies are modelled
from the spec; the overload set itself is the one declared in the source). -/
def format1 : Value → String
  | .schar v => intRepr v
  | .uchar v => natRepr v
  | .sshort v => intRepr v
  | .ushort v => natRepr v
  | .sint v => intRepr v
  | .uint v => natRepr v
  | .slong v => intRepr v
  | .ulong v => natRepr v
  | .cstr s => s
  | .ostr s => s
  | .addr p => addrRepr p
  | .indent n => indentRepr n

/-! ### The sinks and the variadic entry points

A `FormatStream` sink is modelled by the string it has received; `write`,
`putc` and `puts` all append.  `format` is the fold expression
`(format1(s, std::forward<Args>(args)), ...)` over the argument list, and
`print` is `format(outs, args...)` followed by `outs.putc('\n')`. -/

/-- The two process-wide standard sinks `outs` and `errs`, each modelled by
the text written to it so far. -/
structure Streams where
  outs : String
  errs : String
  deriving DecidableEq

/-- Embedding of the variadic `format(FormatStream &s, Args &&... args)`
template: the fold expression applies `format1` to each argument in order,
each call appending its text to the sink. -/
def format (st : String) : List Value → String
  | [] => st
  | a :: args => format (st ++ format1 a) args

/-- Embedding of the variadic `print(Args &&... args)` template:
`format(outs, args...)` followed by `outs.putc('\n')`; `errs` is untouched. -/
def print (args : List Value) (g : Streams) : Streams :=
  let g1 : Streams := { g with outs := format g.outs args }
  { g1 with outs := g1.outs ++ "\n" }

/-- Concatenation of a list of strings, with no separator. -/
def strJoin : List String → String
  | [] => ""
  | s :: rest => s ++ strJoin rest

/-! ### The fold expression over a fallible sink

The concrete sink chooses its own error mechanism; `formatExc` is the same
left-to-right fold as `format`, over a sink whose single-value writes may
signal an error of an arbitrary type `ε` from an arbitrary sink state `σ`.
Evaluation of the C++ fold expression is sequenced left to right, and an
error raised by one call prevents the later calls. -/

def formatExc {σ ε : Type} (f1 : Value → σ → Except ε σ) (st : σ) :
    List Value → Except ε σ
  | [] => Except.ok st
  | a :: args =>
    match f1 a st with
    | Except.ok st2 => formatExc f1 st2 args
    | Except.error e => Except.error e

/-! ### The declared overload set and overload resolution for plain `char`

`format.hpp` declares one `format1` overload per parameter type below —
and none for plain `char`, which in C++ is a type distinct from both
`signed char` and `unsigned char`.  Overload resolution for a plain `char`
argument is modelled by the standard implicit-conversion-sequence ranks:
the promotion `char → int` beats every integral/floating conversion, which
beat the user-defined conversion through the converting constructor
`Indent(int)`; no conversion reaches the pointer, `std::string` or
`FormatAddress` parameters. -/

inductive ParamType where
  | schar
  | uchar
  | sshort
  | ushort
  | sint
  | uint
  | slong
  | ulong
  | floatTy
  | doubleTy
  | constCharPtr
  | stdString
  | formatAddress
  | indentTy
  deriving DecidableEq

/-- The parameter types of the `format1` overloads declared in `format.hpp`,
in declaration order. -/
def declaredOverloads : List ParamType :=
  [.schar, .uchar, .sshort, .ushort, .sint, .uint, .slong, .ulong,
   .floatTy, .doubleTy, .constCharPtr, .stdString, .formatAddress, .indentTy]

/-- Modelled from the spec (C++ conversion ranks, absent from the sources):
the rank of the implicit conversion sequence from a plain `char` argument to
each parameter type — `2` for the integral promotion to `int`, `3` for
integral and floating-integral conversions, `4` for the user-defined
conversion through `Indent(int)`, `none` where no conversion exists. -/
def charConvRank : ParamType → Option Nat
  | .sint => some 2
  | .schar => some 3
  | .uchar => some 3
  | .sshort => some 3
  | .ushort => some 3
  | .uint => some 3
  | .slong => some 3
  | .ulong => some 3
  | .floatTy => some 3
  | .doubleTy => some 3
  | .indentTy => some 4
  | .constCharPtr => none
  | .stdString => none
  | .formatAddress => none

/-- The viable overloads for a plain `char` argument, paired with their
conversion ranks. -/
def viableForChar : List (ParamType × Nat) :=
  declaredOverloads.filterMap (fun t => (charConvRank t).map (fun r => (t, r)))

/-- The best (smallest) conversion rank among the viable overloads. -/
def bestCharRank : Option Nat :=
  (viableForChar.map Prod.snd).foldr
    (fun r acc =>
      match acc with
      | none => some r
      | some r2 => some (min r r2)) none

/-- The overload C++ selects for a plain `char` argument: the unique viable
overload of best rank (`none` would mean no match or an ambiguity). -/
def resolvedCharOverload : Option ParamType :=
  match (viableForChar.filter (fun p => some p.2 = bestCharRank)).map Prod.fst with
  | [t] => some t
  | _ => none

/-- Formatting a plain `char` with code `code`: dispatch to the resolved
overload — the `int` overload, which receives the promoted code value. -/
def formatPlainChar (code : Nat) (st : String) : Option String :=
  match resolvedCharOverload with
  | some ParamType.sint => some (format st [Value.sint (Int.ofNat code)])
  | _ => none

/-- Modelled from the spec (LP64 widths, absent from the sources): bit width
and signedness of each integral parameter type; `true` means signed. -/
def intWidthSign : ParamType → Option (Nat × Bool)
  | .schar => some (8, true)
  | .uchar => some (8, false)
  | .sshort => some (16, true)
  | .ushort => some (16, false)
  | .sint => some (32, true)
  | .uint => some (32, false)
  | .slong => some (64, true)
  | .ulong => some (64, false)
  | _ => none

/-- A concrete fallible sink used as the C7 witness: single-value writes
append their rendering, except that one designated value makes the sink
signal error `3`. -/
def failingSink (v : Value) (st : String) : Except Nat String :=
  if v = Value.indent (-1) then Except.error 3 else Except.ok (st ++ format1 v)

theorem digitsFuel_congr (k : Nat) :
    ∀ (n f1 f2 : Nat), n ≤ f1 → n ≤ f2 → digitsFuel k f1 n = digitsFuel k f2 n := by
  intro n
  induction n using Nat.strong_induction_on with
  | _ n ih =>
    match n with
    | 0 => intro f1 f2 _ _; cases f1 <;> cases f2 <;> rfl
    | m + 1 =>
      intro f1 f2 h1 h2
      match f1, f2 with
      | g1 + 1, g2 + 1 =>
        rw [digitsFuel, digitsFuel]
        have hq : (m + 1) / (k + 2) < m + 1 := Nat.div_lt_self (Nat.succ_pos m) (by omega)
        rw [ih ((m + 1) / (k + 2)) hq g1 g2 (by omega) (by omega)]

theorem digitsB_zero (k : Nat) : digitsB k 0 = [] := rfl

theorem digitsB_succ (k m : Nat) :
    digitsB k (m + 1) = digitsB k ((m + 1) / (k + 2)) ++ [(m + 1) % (k + 2)] := by
  have hq : (m + 1) / (k + 2) < m + 1 := Nat.div_lt_self (Nat.succ_pos m) (by omega)
  rw [digitsB, digitsB, digitsFuel,
    digitsFuel_congr k ((m + 1) / (k + 2)) m ((m + 1) / (k + 2)) (by omega) (le_refl _)]

theorem valB_append_singleton (k : Nat) (ds : List Nat) (d : Nat) :
    valB k (ds ++ [d]) = valB k ds * (k + 2) + d := by
  simp [valB, List.foldl_append]

theorem valB_digitsB (k : Nat) : ∀ n, valB k (digitsB k n) = n := by
  intro n
  induction n using Nat.strong_induction_on with
  | _ n ih =>
    match n with
    | 0 => rw [digitsB_zero]; rfl
    | m + 1 =>
      rw [digitsB_succ, valB_append_singleton,
        ih ((m + 1) / (k + 2)) (Nat.div_lt_self (Nat.succ_pos m) (by omega))]
      rw [Nat.mul_comm]
      exact Nat.div_add_mod (m + 1) (k + 2)

theorem digitsB_inj (k : Nat) {a b : Nat} (h : digitsB k a = digitsB k b) : a = b := by
  have ha := valB_digitsB k a
  rw [h, valB_digitsB] at ha
  omega

theorem digitsB_lt (k : Nat) : ∀ n, ∀ d ∈ digitsB k n, d < k + 2 := by
  intro n
  induction n using Nat.strong_induction_on with
  | _ n ih =>
    match n with
    | 0 => intro d hd; rw [digitsB_zero] at hd; exact absurd hd (List.not_mem_nil d)
    | m + 1 =>
      intro d hd
      rw [digitsB_succ] at hd
      rcases List.mem_append.1 hd with h | h
      · exact ih ((m + 1) / (k + 2)) (Nat.div_lt_self (Nat.succ_pos m) (by omega)) d h
      · simp at h
        subst h
        exact Nat.mod_lt _ (by omega)

theorem digitsB_ne_nil (k : Nat) {n : Nat} (h : n ≠ 0) : digitsB k n ≠ [] := by
  match n with
  | 0 => exact absurd rfl h
  | m + 1 => rw [digitsB_succ]; simp

theorem digitsB_head_ne_zero (k : Nat) :
    ∀ n, n ≠ 0 → ∀ d, (digitsB k n).head? = some d → d ≠ 0 := by
  intro n
  induction n using Nat.strong_induction_on with
  | _ n ih =>
    match n with
    | 0 => intro h; exact absurd rfl h
    | m + 1 =>
      intro _ d hd
      rw [digitsB_succ] at hd
      by_cases hq : (m + 1) / (k + 2) = 0
      · rw [hq] at hd
        simp [digitsB_zero] at hd
        have hlt : m + 1 < k + 2 := (Nat.div_eq_zero_iff (by omega)).1 hq
        rw [Nat.mod_eq_of_lt hlt] at hd
        omega
      · rw [List.head?_append_of_ne_nil _ (digitsB_ne_nil k hq)] at hd
        exact ih ((m + 1) / (k + 2)) (Nat.div_lt_self (Nat.succ_pos m) (by omega)) hq d hd

theorem digitVal_digitChar {d : Nat} (h : d < 10) : digitVal (digitChar d) = d := by
  interval_cases d <;> rfl

theorem isDigitB_digitChar {d : Nat} (h : d < 10) : isDigitB (digitChar d) = true := by
  interval_cases d <;> rfl

theorem map_digitVal_digitChar (ds : List Nat) (h : ∀ d ∈ ds, d < 10) :
    (ds.map digitChar).map digitVal = ds := by
  induction ds with
  | nil => rfl
  | cons d ds ih =>
    simp only [List.map_cons, List.cons.injEq]
    exact ⟨digitVal_digitChar (h d (List.mem_cons_self d ds)),
      ih fun x hx => h x (List.mem_cons_of_mem d hx)⟩

theorem all_isDigitB_digitChar (ds : List Nat) (h : ∀ d ∈ ds, d < 10) :
    (ds.map digitChar).all isDigitB = true := by
  rw [List.all_eq_true]
  intro c hc
  rcases List.mem_map.1 hc with ⟨d, hd, rfl⟩
  exact isDigitB_digitChar (h d hd)

theorem parseNatL_natRepr (n : Nat) : parseNatL (natRepr n).data = some n := by
  by_cases h0 : n = 0
  · subst h0; rfl
  · have hds := digitsB_lt 8 n
    rw [natRepr, if_neg h0]
    have hne : (digitsB 8 n).map digitChar ≠ [] := by
      intro hc
      exact digitsB_ne_nil 8 h0 (List.map_eq_nil_iff.1 hc)
    rw [parseNatL]
    rw [if_neg hne, if_pos (all_isDigitB_digitChar _ hds),
      map_digitVal_digitChar _ hds, valB_digitsB]

/-- Decimal round-trip for unsigned values. -/
theorem parseNat_natRepr (n : Nat) : parseNat (natRepr n) = some n :=
  parseNatL_natRepr n

theorem natRepr_head_not_dash (n : Nat) : (natRepr n).data.head? ≠ some '-' := by
  by_cases h0 : n = 0
  · subst h0; intro h; simp [natRepr] at h
  · rw [natRepr, if_neg h0]
    intro h
    rw [List.head?_map] at h
    rcases Option.map_eq_some.1 h with ⟨d, hd, hchar⟩
    have hd10 : d < 10 := digitsB_lt 8 n d (List.mem_of_mem_head? hd)
    revert hchar
    interval_cases d <;> decide

theorem parseInt_intRepr (v : Int) : parseInt (intRepr v) = some v := by
  by_cases hneg : v < 0
  · rw [intRepr, if_pos hneg, parseInt, parseIntL]
    have hdata : ("-" ++ natRepr v.natAbs).data = '-' :: (natRepr v.natAbs).data := by
      rw [String.data_append]; rfl
    rw [hdata]
    simp only [List.head?_cons, List.tail_cons, if_pos rfl, if_true, parseNatL_natRepr]
    congr 1
    rw [Int.ofNat_natAbs_of_nonpos (le_of_lt hneg), neg_neg]
  · rw [intRepr, if_neg hneg, parseInt, parseIntL,
      if_neg (natRepr_head_not_dash v.toNat)]
    simp only [parseNatL_natRepr]
    congr 1
    omega

theorem format_eq_join (args : List Value) :
    ∀ st : String, format st args = st ++ strJoin (args.map format1) := by
  induction args with
  | nil => intro st; simp [format, strJoin]
  | cons a args ih =>
    intro st
    rw [List.map_cons, format, ih, strJoin, String.append_assoc]

theorem formatExc_append {σ ε : Type} (f1 : Value → σ → Except ε σ)
    (xs : List Value) : ∀ (st : σ) (ys : List Value),
    formatExc f1 st (xs ++ ys) =
      match formatExc f1 st xs with
      | Except.ok st2 => formatExc f1 st2 ys
      | Except.error e => Except.error e := by
  induction xs with
  | nil => intro st ys; rfl
  | cons a xs ih =>
    intro st ys
    rw [List.cons_append, formatExc, formatExc]
    match f1 a st with
    | Except.ok st2 => exact ih st2 ys
    | Except.error e => rfl

/-! ### Supporting lemmas for the claims -/

theorem digitChar_inj :
    ∀ d1 < 16, ∀ d2 < 16, digitChar d1 = digitChar d2 → d1 = d2 := by decide

theorem map_digitChar_inj :
    ∀ (ds1 ds2 : List Nat), (∀ d ∈ ds1, d < 16) → (∀ d ∈ ds2, d < 16) →
      ds1.map digitChar = ds2.map digitChar → ds1 = ds2
  | [], [], _, _, _ => rfl
  | [], _ :: _, _, _, h => by simp at h
  | _ :: _, [], _, _, h => by simp at h
  | d1 :: t1, d2 :: t2, h1, h2, h => by
    simp only [List.map_cons, List.cons.injEq] at h
    have hd : d1 = d2 :=
      digitChar_inj d1 (h1 d1 (List.mem_cons_self d1 t1)) d2
        (h2 d2 (List.mem_cons_self d2 t2)) h.1
    rw [hd, map_digitChar_inj t1 t2
      (fun x hx => h1 x (List.mem_cons_of_mem d1 hx))
      (fun x hx => h2 x (List.mem_cons_of_mem d2 hx)) h.2]

theorem natRepr_head_ne_zero (n : Nat) : (natRepr (n + 1)).data.head? ≠ some '0' := by
  rw [natRepr, if_neg (Nat.succ_ne_zero n)]
  intro h
  rw [List.head?_map] at h
  rcases Option.map_eq_some.1 h with ⟨d, hd, hchar⟩
  have hne : d ≠ 0 := digitsB_head_ne_zero 8 (n + 1) (Nat.succ_ne_zero n) d hd
  have hd10 : d < 10 := digitsB_lt 8 (n + 1) d (List.mem_of_mem_head? hd)
  exact hne (digitChar_inj d (by omega) 0 (by omega) hchar)

theorem hexDigits_lt (p : Nat) : ∀ d ∈ hexDigits p, d < 16 := by
  rw [hexDigits]
  by_cases h0 : p = 0
  · rw [if_pos h0]; intro d hd; simp at hd; omega
  · rw [if_neg h0]; exact digitsB_lt 14 p

theorem hexDigits_inj {p q : Nat} (h : hexDigits p = hexDigits q) : p = q := by
  rw [hexDigits, hexDigits] at h
  by_cases hp : p = 0 <;> by_cases hq : q = 0
  · omega
  · rw [if_pos hp, if_neg hq] at h
    have := valB_digitsB 14 q
    rw [← h] at this
    simp [valB] at this
    omega
  · rw [if_neg hp, if_pos hq] at h
    have := valB_digitsB 14 p
    rw [h] at this
    simp [valB] at this
    omega
  · rw [if_neg hp, if_neg hq] at h
    exact digitsB_inj 14 h

theorem addrRepr_inj {p q : Nat} (h : addrRepr p = addrRepr q) : p = q := by
  rw [addrRepr, addrRepr] at h
  have hd := congrArg String.data h
  rw [String.data_append, String.data_append] at hd
  simp only [List.append_cancel_left_eq] at hd
  exact hexDigits_inj
    (map_digitChar_inj _ _ (hexDigits_lt p) (hexDigits_lt q) hd)

theorem addrRepr_ne_empty (p : Nat) : addrRepr p ≠ "" := by
  intro h
  have hd := congrArg String.data h
  rw [addrRepr, String.data_append] at hd
  simp at hd

theorem strJoin_replicate_comm (u : String) :
    ∀ n, strJoin (List.replicate n u) ++ u = u ++ strJoin (List.replicate n u) := by
  intro n
  induction n with
  | zero => simp [strJoin]
  | succ n ih =>
    rw [List.replicate_succ, strJoin, String.append_assoc, ih]

theorem indentLoop_eq_join (n : Nat) :
    indentLoop n = strJoin (List.replicate n indentUnit) := by
  induction n with
  | zero => rfl
  | succ n ih =>
    rw [indentLoop, ih, List.replicate_succ, strJoin, strJoin_replicate_comm]

/-! ### The claims -/

/-- C1: `format(s, a1, ..., an)` applies `format1` to each argument strictly
in argument order, so the sink receives exactly the concatenation of the
single-value renderings, with no separator, interleaving or reordering. -/
theorem claim_C1_format_concat (st : String) (args : List Value) :
    format st args = st ++ strJoin (args.map format1) :=
  format_eq_join args st

/-- C2: `print(a1, ..., an)` writes to the standard-output sink `outs`
exactly the output of `format(outs, a1, ..., an)` with one line terminator
appended and nothing else; the `errs` sink is untouched. -/
theorem claim_C2_print_format_newline (args : List Value) (g : Streams) :
    (print args g).outs = format g.outs args ++ "\n" ∧
    (print args g).outs = g.outs ++ (strJoin (args.map format1) ++ "\n") ∧
    (print args g).errs = g.errs := by
  refine ⟨rfl, ?_, rfl⟩
  show format g.outs args ++ "\n" = g.outs ++ (strJoin (args.map format1) ++ "\n")
  rw [format_eq_join, String.append_assoc]

/-- C3: formatting `Indent(n)` with `n ≤ 0` emits the empty string (the
conversion is total, so it cannot error), and with `n > 0` emits exactly `n`
repetitions of the fixed whitespace unit `indentUnit`. -/
theorem claim_C3_indent (n : Int) :
    (n ≤ 0 → format1 (Value.indent n) = "") ∧
    (0 < n → format1 (Value.indent n) = strJoin (List.replicate n.toNat indentUnit) ∧
      (n.toNat : Int) = n) := by
  constructor
  · intro h
    show indentRepr n = ""
    rw [indentRepr]
    have h0 : n.toNat = 0 := by omega
    rw [h0]
    rfl
  · intro h
    refine ⟨?_, by omega⟩
    show indentRepr n = _
    rw [indentRepr, indentLoop_eq_join]

/-- Witness for C3 at the levels `-5` and `3`. -/
theorem claim_C3_indent_witness :
    format1 (Value.indent (-5)) = "" ∧
    format1 (Value.indent 3) = strJoin (List.replicate (Int.toNat 3) indentUnit) :=
  ⟨(claim_C3_indent (-5)).1 (by decide), ((claim_C3_indent 3).2 (by decide)).1⟩

/-- C4: formatting a value of any supported integer type and parsing the
resulting decimal text back as the same type yields the value again — the
four signed overloads render through `intRepr` and parse back with
`parseInt`, the four unsigned ones through `natRepr` / `parseNat`. -/
theorem claim_C4_roundtrip :
    (∀ v : Int, parseInt (format1 (Value.schar v)) = some v) ∧
    (∀ v : Int, parseInt (format1 (Value.sshort v)) = some v) ∧
    (∀ v : Int, parseInt (format1 (Value.sint v)) = some v) ∧
    (∀ v : Int, parseInt (format1 (Value.slong v)) = some v) ∧
    (∀ n : Nat, parseNat (format1 (Value.uchar n)) = some n) ∧
    (∀ n : Nat, parseNat (format1 (Value.ushort n)) = some n) ∧
    (∀ n : Nat, parseNat (format1 (Value.uint n)) = some n) ∧
    (∀ n : Nat, parseNat (format1 (Value.ulong n)) = some n) :=
  ⟨parseInt_intRepr, parseInt_intRepr, parseInt_intRepr, parseInt_intRepr,
   parseNat_natRepr, parseNat_natRepr, parseNat_natRepr, parseNat_natRepr⟩

/-- C5: formatting a `FormatAddress` yields a non-empty string, the
rendering is deterministic (it is a function of the address value), and it
is injective — distinct address values render to distinct strings. -/
theorem claim_C5_address (p q : Nat) :
    format1 (Value.addr p) ≠ "" ∧
    (format1 (Value.addr p) = format1 (Value.addr q) → p = q) :=
  ⟨addrRepr_ne_empty p, fun h => addrRepr_inj h⟩

/-- Witness for C5 at the address value `7`. -/
theorem claim_C5_address_witness :
    format1 (Value.addr 7) ≠ "" ∧ (7 : Nat) = 7 :=
  ⟨(claim_C5_address 7 7).1, (claim_C5_address 7 7).2 rfl⟩

/-- C6: formatting a C string or an owned `std::string` appends exactly its
characters to the sink, verbatim: no quoting, escaping, or any other
character is added. -/
theorem claim_C6_text_verbatim (s st : String) :
    format st [Value.cstr s] = st ++ s ∧ format st [Value.ostr s] = st ++ s :=
  ⟨rfl, rfl⟩

/-- C7: the formatter layer raises no errors of its own — when every
single-value sink write succeeds, the composition succeeds — and an error
the sink signals at any argument position is returned to the composition's
caller unmodified: neither suppressed, translated, nor wrapped. -/
theorem claim_C7_error_propagation :
    (∀ (σ ε : Type) (f1 : Value → σ → Except ε σ) (st : σ) (args : List Value),
      (∀ (a : Value) (st2 : σ), ∃ st3, f1 a st2 = Except.ok st3) →
      ∃ stf, formatExc f1 st args = Except.ok stf) ∧
    (∀ (σ ε : Type) (f1 : Value → σ → Except ε σ) (st st2 : σ)
      (pre rest : List Value) (a : Value) (e : ε),
      formatExc f1 st pre = Except.ok st2 → f1 a st2 = Except.error e →
      formatExc f1 st (pre ++ a :: rest) = Except.error e) := by
  constructor
  · intro σ ε f1 st args hok
    induction args generalizing st with
    | nil => exact ⟨st, rfl⟩
    | cons a as ih =>
      rcases hok a st with ⟨st3, h3⟩
      rw [formatExc, h3]
      exact ih st3
  · intro σ ε f1 st st2 pre rest a e hpre ha
    rw [formatExc_append, hpre]
    show formatExc f1 st2 (a :: rest) = Except.error e
    rw [formatExc, ha]

/-- Witness for C7: a sink that fails on the second of three arguments makes
the fold return exactly that error. -/
theorem claim_C7_error_propagation_witness :
    formatExc failingSink "" [Value.cstr "a", Value.indent (-1), Value.cstr "b"]
      = Except.error 3 :=
  claim_C7_error_propagation.2 String Nat failingSink "" "a"
    [Value.cstr "a"] [Value.cstr "b"] (Value.indent (-1)) 3 rfl rfl

/-- C8: the declared overloads cover signed and unsigned integer types of
widths 8, 16, 32 and 64 bits, and the decimal rendering is minimal — digit
characters only (no thousands separators), a leading sign exactly for
negative signed values, and no leading zeros beyond `"0"` for zero itself. -/
theorem claim_C8_integer_decimal :
    (([8, 16, 32, 64] : List Nat).all (fun w =>
      (declaredOverloads.any fun t => intWidthSign t = some (w, true)) &&
      (declaredOverloads.any fun t => intWidthSign t = some (w, false))) = true) ∧
    natRepr 0 = "0" ∧
    (∀ n : Nat, (natRepr n).data.all isDigitB = true) ∧
    (∀ n : Nat, (natRepr (n + 1)).data.head? ≠ some '0') ∧
    (∀ n : Nat, intRepr (n : Int) = natRepr n) ∧
    (∀ n : Nat, intRepr (-((n + 1 : Nat) : Int)) = "-" ++ natRepr (n + 1)) := by
  refine ⟨by decide, rfl, ?_, natRepr_head_ne_zero, ?_, ?_⟩
  · intro n
    by_cases h0 : n = 0
    · subst h0; rfl
    · rw [natRepr, if_neg h0]
      exact all_isDigitB_digitChar _ (digitsB_lt 8 n)
  · intro n
    rw [intRepr, if_neg (by omega)]
    rfl
  · intro n
    rw [intRepr, if_pos (by omega)]
    have habs : (-((n + 1 : Nat) : Int)).natAbs = n + 1 := by omega
    rw [habs]

/-- Witness for C8: the decimal properties evaluated at `10` and `-203`. -/
theorem claim_C8_integer_decimal_witness :
    (natRepr 10).data.head? ≠ some '0' ∧
    intRepr (-((203 : Nat) : Int)) = "-" ++ natRepr 203 :=
  ⟨claim_C8_integer_decimal.2.2.2.1 9, claim_C8_integer_decimal.2.2.2.2.2 202⟩

/-- C9: `format.hpp` declares no `format1` overload for plain `char`;
overload resolution for a plain `char` argument uniquely selects the `int`
overload through the integral promotion, so the char is rendered as the
decimal numeric value of its code — `'A'` (code 65) becomes `"65"`, not
`"A"`. -/
theorem claim_C9_plain_char :
    resolvedCharOverload = some ParamType.sint ∧
    (∀ (code : Nat) (st : String),
      formatPlainChar code st = some (st ++ intRepr (Int.ofNat code))) ∧
    formatPlainChar 65 "" = some "65" ∧
    formatPlainChar 65 "" ≠ some "A" :=
  ⟨rfl, fun _ _ => rfl, by decide, by decide⟩

/-- Witness for C9: the concrete rendering of code 65. -/
theorem claim_C9_plain_char_witness : formatPlainChar 65 "" = some "65" :=
  claim_C9_plain_char.2.2.1

/-- C10: `format(s)` with zero value arguments writes nothing and leaves the
sink unchanged, and `print()` with zero arguments writes exactly one line
terminator to the standard-output sink and nothing else. -/
theorem claim_C10_empty_calls (st : String) (g : Streams) :
    format st [] = st ∧
    (print [] g).outs = g.outs ++ "\n" ∧
    (print [] g).errs = g.errs :=
  ⟨rfl, rfl, rfl⟩

end HailFormat
